import Mathlib

/-!
Shallow embedding of the `scoreboard` repository (src/scoreboard/match.py,
src/scoreboard/match_sorter.py, src/scoreboard/scoreboard.py).

Conventions of the embedding:
* Python strings are Lean `String`s; `str.lower()` is `pyLower` (character-wise
  `Char.toLower`, which matches CPython on the ASCII names the program uses).
* The pydantic model `Match` is a structure.  pydantic validation of a score
  assignment (`conint(ge=0, lt=1000)` with `validate_assignment=True`) is
  `validateScore` on a `PyVal` (an `int` or some non-integer value); a failed
  assignment raises and leaves the field unchanged, a successful one stores the
  value.  `order_started` is the extra attribute set by `Scoreboard.start_match`.
* The Python `dict` `self.matchDict` is an insertion-ordered association list
  (`dictInsert` replaces in place on an existing key, as dict assignment does);
  the `set` `self.teams` is a duplicate-free list (`addTeam` / `removeTeam`,
  where `removeTeam` mirrors `set.remove`).
* Raised exceptions are the error kinds of the spec: pydantic `ValidationError`
  is `Err.validation`; the two `ValueError`s of `scoreboard.py` are
  `Err.duplicate` ("At least one of the teams is in an active scoreboard game
  already.") and `Err.notFound` ("Match does not exist on the scoreboard.");
  `set.remove` on a missing element is `Err.keyError`.
* Mutating operations return `Option Err × Scoreboard`: the exception raised
  (if any) together with the state after the call, so that partial mutation
  before a raise is observable, exactly as for the in-place Python objects.
-/

/-- Python `str.lower()` as used on the ASCII team names: lower each character. -/
def pyLower (s : String) : String := ⟨s.data.map Char.toLower⟩

/-- A string contains no `'_'` separator character. -/
def noSep (s : String) : Prop := '_' ∉ s.data

instance (s : String) : Decidable (noSep s) := by unfold noSep; infer_instance

/-- The pydantic model of src/scoreboard/match.py: two team names, two
validated scores (`0 ≤ v < 1000`) defaulting to `0`, and the `order_started`
attribute that `Scoreboard.start_match` sets (defaulting to `0`). -/
structure Match where
  home : String
  away : String
  home_score : Nat := 0
  away_score : Nat := 0
  order_started : Nat := 0
deriving DecidableEq, Repr

/-- The `total_score` property of `Match`. -/
def Match.total_score (m : Match) : Nat := m.home_score + m.away_score

/-- The error kinds observable from the program (see module docstring). -/
inductive Err where
  | validation
  | duplicate
  | notFound
  | keyError
deriving DecidableEq, Repr

/-- A Python value passed as a score: an integer, or anything that pydantic's
`conint` strict-ish validation rejects outright (float, string, ...). -/
inductive PyVal where
  | int (i : Int)
  | nonInt
deriving DecidableEq, Repr

/-- pydantic validation of one score field: accepted exactly for integers `i`
with `0 ≤ i < 1000` (`conint(ge=0, lt=MAX_TEAM_GOALS)`). -/
def validateScore : PyVal → Option Nat
  | .int i => if 0 ≤ i ∧ i < 1000 then some i.toNat else none
  | .nonInt => none

/-- Constructing a `Match(home=..., away=...)`: pydantic raises a
`ValidationError` when a required field is missing, and the `capitalize`
model validator raises when the two names are equal after `lower()`.
A plain `str` field accepts the empty string. -/
def mkMatch : Option String → Option String → Except Err Match
  | some h, some a =>
    if pyLower h = pyLower a then .error .validation
    else .ok { home := h, away := a }
  | _, _ => .error .validation

/-- State of a `Scoreboard`: the `matches` dict (insertion-ordered association
list keyed by `_team_names_to_key`), the `teams` set of lowered engaged names,
and the `order_counter`. -/
structure Scoreboard where
  matchDict : List (String × Match)
  teams : List String
  order_counter : Nat
deriving DecidableEq, Repr

/-- Constructor `Scoreboard.__init__`. -/
def initialScoreboard : Scoreboard := ⟨[], [], 0⟩

/-- Key builder `Scoreboard._team_names_to_key`: lowered names joined by an underscore. -/
def teamKey (home_team away_team : String) : String :=
  pyLower home_team ++ "_" ++ pyLower away_team

/-- Dict lookup (`key in d` / `d[key]`). -/
def dictLookup (k : String) : List (String × Match) → Option Match
  | [] => none
  | (k', m) :: rest => if k' = k then some m else dictLookup k rest

/-- Dict assignment `d[key] = v`: replaces in place if the key is present
(keeping its position, as a Python dict does), otherwise appends. -/
def dictInsert (k : String) (v : Match) : List (String × Match) → List (String × Match)
  | [] => [(k, v)]
  | (k', m) :: rest => if k' = k then (k, v) :: rest else (k', m) :: dictInsert k v rest

/-- Dict deletion `del d[key]`. -/
def dictErase (k : String) : List (String × Match) → List (String × Match)
  | [] => []
  | (k', m) :: rest => if k' = k then rest else (k', m) :: dictErase k rest

/-- Python `set.add`. -/
def addTeam (t : String) (ts : List String) : List String :=
  if t ∈ ts then ts else ts ++ [t]

/-- Python `set.remove` (the caller must separately observe the `KeyError` when the
element is absent; see `finishMatch`). -/
def removeTeam (t : String) (ts : List String) : List String := ts.erase t

/-- Method `Scoreboard.start_match`: construct the `Match` (validation may raise),
then raise `ValueError` if either lowered name is already engaged, otherwise
set `order_started`, bump the counter, engage both names and store the match
under the symmetric-ish key. -/
def startMatch (sb : Scoreboard) (home_team away_team : String) : Option Err × Scoreboard :=
  match mkMatch (some home_team) (some away_team) with
  | .error e => (some e, sb)
  | .ok m =>
    if pyLower home_team ∈ sb.teams ∨ pyLower away_team ∈ sb.teams then
      (some .duplicate, sb)
    else
      (none,
        { matchDict := dictInsert (teamKey home_team away_team)
            { m with order_started := sb.order_counter } sb.matchDict,
          teams := addTeam (pyLower away_team) (addTeam (pyLower home_team) sb.teams),
          order_counter := sb.order_counter + 1 })

/-- The order-sensitive tail call of `Scoreboard.get_match`
(`get_match(team_a=team_b, team_b=team_a, order_sensitive=True)`). -/
def getMatchSensitive (sb : Scoreboard) (team_a team_b : String) : Except Err Match :=
  match dictLookup (teamKey team_a team_b) sb.matchDict with
  | some m => .ok m
  | none => .error .notFound

/-- Method `Scoreboard.get_match`: try the key built from `(team_a, team_b)`; on a
miss either raise (order-sensitive) or retry once with the roles swapped. -/
def getMatch (sb : Scoreboard) (team_a team_b : String) (order_sensitive : Bool) :
    Except Err Match :=
  match dictLookup (teamKey team_a team_b) sb.matchDict with
  | some m => .ok m
  | none =>
    if order_sensitive then .error .notFound
    else getMatchSensitive sb team_b team_a

/-- Method `Scoreboard.update_match_score`: order-sensitive lookup, then assign
`home_score` and `away_score` one after the other; each assignment is
validated on its own and raises without touching the field on failure, so a
failure of the second assignment leaves the first one committed. -/
def updateMatchScore (sb : Scoreboard) (home_team away_team : String)
    (home_score away_score : PyVal) : Option Err × Scoreboard :=
  match getMatch sb home_team away_team true with
  | .error e => (some e, sb)
  | .ok m =>
    match validateScore home_score with
    | none => (some .validation, sb)
    | some h =>
      let sb1 := { sb with
        matchDict := dictInsert (teamKey home_team away_team) { m with home_score := h } sb.matchDict }
      match validateScore away_score with
      | none => (some .validation, sb1)
      | some a => (none, { sb1 with
          matchDict := dictInsert (teamKey home_team away_team)
            { m with home_score := h, away_score := a } sb1.matchDict })

/-- The body of `Scoreboard.finish_match` once the key was found: delete the
dict entry, then `teams.remove(team_a.lower())`, then
`teams.remove(team_b.lower())`; each `remove` raises `KeyError` when the name
is absent, after the earlier mutations already happened. -/
def finishRemove (sb : Scoreboard) (team_a team_b : String) : Option Err × Scoreboard :=
  let sb1 := { sb with matchDict := dictErase (teamKey team_a team_b) sb.matchDict }
  if pyLower team_a ∈ sb1.teams then
    let sb2 := { sb1 with teams := removeTeam (pyLower team_a) sb1.teams }
    if pyLower team_b ∈ sb2.teams then
      (none, { sb2 with teams := removeTeam (pyLower team_b) sb2.teams })
    else (some .keyError, sb2)
  else (some .keyError, sb1)

/-- Method `Scoreboard.finish_match`: same lookup policy as `get_match`, removing the
match and both lowered argument names on a hit. -/
def finishMatch (sb : Scoreboard) (team_a team_b : String) (order_sensitive : Bool) :
    Option Err × Scoreboard :=
  if (dictLookup (teamKey team_a team_b) sb.matchDict).isSome then
    finishRemove sb team_a team_b
  else if order_sensitive then (some .notFound, sb)
  else if (dictLookup (teamKey team_b team_a) sb.matchDict).isSome then
    finishRemove sb team_b team_a
  else (some .notFound, sb)

/-- The `MatchSorter.GOALS_TOTAL` ordering: Python sorts ascending by the key
tuple `(-total_score, -order_started)`, i.e. `m1` comes no later than `m2`
when `m1` has the larger total, or equal totals and the larger (more recent)
`order_started`. -/
def goalsTotalLE (m1 m2 : Match) : Prop :=
  m2.total_score < m1.total_score ∨
    (m1.total_score = m2.total_score ∧ m2.order_started ≤ m1.order_started)

instance : DecidableRel goalsTotalLE := fun m1 m2 => by
  unfold goalsTotalLE; infer_instance

instance : IsTotal Match goalsTotalLE :=
  ⟨by intro a b; unfold goalsTotalLE; omega⟩

instance : IsTrans Match goalsTotalLE :=
  ⟨by intro a b c h1 h2; unfold goalsTotalLE at *; omega⟩

/-- Python `sorted(..., key=MatchSorter.GOALS_TOTAL)` on a list of matches: a stable
sort by `goalsTotalLE` (Python's `sorted` is stable; so is insertion sort). -/
def sortMatchesList (l : List Match) : List Match := List.insertionSort goalsTotalLE l

/-- Method `Scoreboard.sort_matches()` with the default sorter: sort the dict values
(in insertion order) by `MatchSorter.GOALS_TOTAL`. -/
def sortMatches (sb : Scoreboard) : List Match :=
  sortMatchesList (sb.matchDict.map Prod.snd)

/-- Class attribute `Scoreboard.MAX_SUMMARY_LINES`. -/
def MAX_SUMMARY_LINES : Nat := 20

/-- Class attribute `Scoreboard.COLUMN_PADDING`. -/
def COLUMN_PADDING : Nat := 2

/-- Class attribute `Scoreboard.MIN_COLUMN_WIDTH`. -/
def MIN_COLUMN_WIDTH : Nat := 10

/-- Class attribute `Scoreboard.MAX_COLUMN_WIDTH`. -/
def MAX_COLUMN_WIDTH : Nat := 50

/-- Class attribute `Scoreboard.HOME_HEADER`. -/
def HOME_HEADER : String := "HOME"

/-- Class attribute `Scoreboard.AWAY_HEADER`. -/
def AWAY_HEADER : String := "AWAY"

/-- Class attribute `Scoreboard.TABLE_ELLIPSIS`. -/
def TABLE_ELLIPSIS : String := "(...)\n"

/-- Attribute `self._home_color`. -/
def homeColor : String := "\x1b[5;30;46m"

/-- Attribute `self._away_color`. -/
def awayColor : String := "\x1b[6;30;42m"

/-- Attribute `self._color_end`. -/
def colorEnd : String := "\x1b[0m"

/-- Method `Scoreboard._get_matches_for_summary`: slice the default-sorted list. -/
def getMatchesForSummary (sb : Scoreboard) (max_lines start_from : Nat) :
    List Match × Bool :=
  let ordered := sortMatches sb
  if ordered.length + start_from ≤ max_lines then
    (ordered.drop start_from, false)
  else
    ((ordered.drop start_from).take max_lines,
      decide (start_from + max_lines < ordered.length))

/-- A string of `n` spaces. -/
def spaces (n : Nat) : String := ⟨List.replicate n ' '⟩

/-- A string of `n` dashes. -/
def dashes (n : Nat) : String := ⟨List.replicate n '-'⟩

/-- Python `f"{s:<{w}}"`: left-justify with spaces up to width `w`. -/
def ljust (s : String) (w : Nat) : String := s ++ spaces (w - s.length)

/-- Python `f"{s:>{w}}"`: right-justify with spaces up to width `w`. -/
def rjust (s : String) (w : Nat) : String := spaces (w - s.length) ++ s

/-- Python `f"{n:02d}"` for a non-negative `n`. -/
def pad2 (n : Nat) : String := if n < 10 then "0" ++ toString n else toString n

/-- The home score field: `f" {s:02d}"` under 100, else `f"{s:03d}"`
(three digits for the scores `100 ≤ s < 1000` the model admits). -/
def homeScoreStr (n : Nat) : String :=
  if n < 100 then " " ++ pad2 n else toString n

/-- The away score field: `f"{s:02d} "` under 100, else `f"{s:03d}"`. -/
def awayScoreStr (n : Nat) : String :=
  if n < 100 then pad2 n ++ " " else toString n

/-- Python slicing `s[:k]` for an `int` index `k` (negative counts from the
end, clamping at the empty string). -/
def pyTake (s : String) (k : Int) : String :=
  if 0 ≤ k then s.take k.toNat else s.take ((s.length : Int) + k).toNat

/-- The display form of a team name in `Scoreboard._match_printer`: kept as is
while `len(name) < column_width - COLUMN_PADDING`, otherwise cut to
`name[:max_str_length - 3] + "..."`. -/
def displayName (name : String) (column_width : Nat) : String :=
  if (name.length : Int) < (column_width : Int) - (COLUMN_PADDING : Int) then name
  else pyTake name ((column_width : Int) - (COLUMN_PADDING : Int) - 3) ++ "..."

/-- One line of `Scoreboard._match_printer` (with `pretty` adding the two
highlight wrappings). -/
def matchLine (m : Match) (column_width : Nat) (pretty : Bool) : String :=
  let hds := displayName m.home column_width
  let ads := displayName m.away column_width
  if pretty then
    homeColor ++ ljust hds column_width ++ homeScoreStr m.home_score ++ colorEnd ++ ":" ++
      awayColor ++ awayScoreStr m.away_score ++ rjust ads column_width ++ colorEnd ++ "\n"
  else
    ljust hds column_width ++ homeScoreStr m.home_score ++ ":" ++
      awayScoreStr m.away_score ++ rjust ads column_width ++ "\n"

/-- Python `max((len(...) for ...), default=0)` over a name selector. -/
def maxNameLength (f : Match → String) (ms : List Match) : Nat :=
  (ms.map fun m => (f m).length).foldr max 0

/-- Method `Scoreboard._get_column_width`. -/
def getColumnWidth (ms : List Match) : Nat :=
  min (max (max (maxNameLength Match.home ms) (maxNameLength Match.away ms))
    MIN_COLUMN_WIDTH) MAX_COLUMN_WIDTH + COLUMN_PADDING

/-- Method `Scoreboard._get_summary_header` (two text lines in one string). -/
def summaryHeader (column_width : Nat) : String :=
  homeColor ++ ljust HOME_HEADER column_width ++ "   " ++ colorEnd ++ "|" ++
    awayColor ++ "   " ++ rjust AWAY_HEADER column_width ++ colorEnd ++ "\n" ++
    dashes (2 * column_width + 7) ++ "\n"

/-- Method `Scoreboard._get_summary_footer`. -/
def summaryFooter (column_width : Nat) : String :=
  dashes (2 * column_width + 7) ++ "\n"

/-- The column width `Scoreboard.summary` passes to every printer call: that
of the paginated window only. -/
def summaryColumnWidth (sb : Scoreboard) (max_lines : Option Nat) (start_from : Nat) : Nat :=
  getColumnWidth (getMatchesForSummary sb (max_lines.getD MAX_SUMMARY_LINES) start_from).1

/-- The pieces `Scoreboard.summary` concatenates, in order: optional header,
one `_match_printer` line per selected match, optional ellipsis line, optional
footer.  `is_linux` is the `sys.platform` capability test made a parameter. -/
def summaryPieces (sb : Scoreboard) (pretty : Bool) (max_lines : Option Nat)
    (start_from : Nat) (is_linux : Bool) : List String :=
  let ml := max_lines.getD MAX_SUMMARY_LINES
  let win := getMatchesForSummary sb ml start_from
  let cw := summaryColumnWidth sb max_lines start_from
  (if pretty && is_linux then [summaryHeader cw] else []) ++
    win.1.map (fun m => matchLine m cw (pretty && is_linux)) ++
    (if win.2 then [TABLE_ELLIPSIS] else []) ++
    (if pretty && is_linux then [summaryFooter cw] else [])

/-- Method `Scoreboard.summary`: the concatenation of its pieces. -/
def summary (sb : Scoreboard) (pretty : Bool) (max_lines : Option Nat)
    (start_from : Nat) (is_linux : Bool) : String :=
  String.join (summaryPieces sb pretty max_lines start_from is_linux)

/-- A public mutating call against the registry (arguments as the caller
passes them). -/
inductive Op where
  | start (home_team away_team : String)
  | update (home_team away_team : String) (home_score away_score : PyVal)
  | finish (team_a team_b : String) (order_sensitive : Bool)
deriving DecidableEq, Repr

/-- The state after a call (exceptions propagate to the caller; the state they
leave behind is kept). -/
def applyOp (sb : Scoreboard) : Op → Scoreboard
  | .start h a => (startMatch sb h a).2
  | .update h a v1 v2 => (updateMatchScore sb h a v1 v2).2
  | .finish a b os => (finishMatch sb a b os).2

/-- Run a sequence of calls from a fresh `Scoreboard()`. -/
def runOps (ops : List Op) : Scoreboard := ops.foldl applyOp initialScoreboard

/-- All names appearing in a call avoid the key separator. -/
def opNoSep : Op → Prop
  | .start h a => noSep h ∧ noSep a
  | .update h a _ _ => noSep h ∧ noSep a
  | .finish a b _ => noSep a ∧ noSep b

instance (op : Op) : Decidable (opNoSep op) := by
  cases op <;> (unfold opNoSep; infer_instance)

/-- The two lowered participant names of a stored entry. -/
def lowNames (p : String × Match) : String × String :=
  (pyLower p.2.home, pyLower p.2.away)

/-- Two name pairs share no component (no participant in common). -/
def nameClash (x y : String × String) : Prop :=
  x.1 ≠ y.1 ∧ x.1 ≠ y.2 ∧ x.2 ≠ y.1 ∧ x.2 ≠ y.2

instance (x y : String × String) : Decidable (nameClash x y) := by
  unfold nameClash; infer_instance

theorem nameClash_symmetric : Symmetric (fun p q => nameClash (lowNames p) (lowNames q)) := by
  intro p q h
  exact ⟨h.1.symm, h.2.2.1.symm, h.2.1.symm, h.2.2.2.symm⟩

/-- The registry invariant of well-formed scoreboard states: every stored
entry is keyed by its own names, engages both its lowered names, has distinct
lowered names; keys and the engaged set are duplicate-free; and distinct
entries share no lowered participant name. -/
def RegInv (sb : Scoreboard) : Prop :=
  (∀ p ∈ sb.matchDict, p.1 = teamKey p.2.home p.2.away) ∧
  (∀ p ∈ sb.matchDict, pyLower p.2.home ∈ sb.teams ∧ pyLower p.2.away ∈ sb.teams) ∧
  (∀ p ∈ sb.matchDict, pyLower p.2.home ≠ pyLower p.2.away) ∧
  (sb.matchDict.map Prod.fst).Nodup ∧
  sb.teams.Nodup ∧
  sb.matchDict.Pairwise (fun p q => nameClash (lowNames p) (lowNames q))

instance (sb : Scoreboard) : Decidable (RegInv sb) := by
  unfold RegInv; infer_instance

/-- The engaged-set half of the invariant, as the spec states it: every active
match has both its case-folded participant names in the engaged set. -/
def engagedInv (sb : Scoreboard) : Prop :=
  ∀ p ∈ sb.matchDict, pyLower p.2.home ∈ sb.teams ∧ pyLower p.2.away ∈ sb.teams

instance (sb : Scoreboard) : Decidable (engagedInv sb) := by
  unfold engagedInv; infer_instance

/-! ### Helper lemmas about the embedded primitives -/

theorem string_length_take (s : String) (n : Nat) : (s.take n).length = min n s.length := by
  show (s.take n).data.length = _
  rw [String.data_take, List.length_take]; rfl

theorem ofNat_shift_ne_sep (n : Nat) (h1 : 65 ≤ n) (h2 : n ≤ 90) :
    Char.ofNat (n + 32) ≠ '_' := by
  interval_cases n <;> decide

theorem toLower_ne_sep (c : Char) (h : c ≠ '_') : Char.toLower c ≠ '_' := by
  simp only [Char.toLower]
  split
  · next hcond => exact ofNat_shift_ne_sep _ hcond.1 hcond.2
  · exact h

theorem pyLower_noSep {s : String} (h : noSep s) : noSep (pyLower s) := by
  intro hmem
  rcases List.mem_map.mp hmem with ⟨c, hc, hlow⟩
  exact toLower_ne_sep c (fun hc' => h (hc' ▸ hc)) hlow

theorem teamKey_data (h w : String) :
    (teamKey h w).data = (pyLower h).data ++ '_' :: (pyLower w).data := by
  simp [teamKey, String.data_append]

theorem sepSplit : ∀ (l1 t1 l2 t2 : List Char), '_' ∉ t1 → '_' ∉ t2 →
    l1 ++ '_' :: l2 = t1 ++ '_' :: t2 → l1 = t1 ∧ l2 = t2 := by
  intro l1
  induction l1 with
  | nil =>
    intro t1 l2 t2 h1 h2 heq
    cases t1 with
    | nil => simpa using heq
    | cons c t1r =>
      simp only [List.nil_append, List.cons_append, List.cons.injEq] at heq
      exact absurd (heq.1 ▸ List.mem_cons_self c t1r) h1
  | cons c l1r ih =>
    intro t1 l2 t2 h1 h2 heq
    cases t1 with
    | nil =>
      simp only [List.cons_append, List.nil_append, List.cons.injEq] at heq
      have : '_' ∈ t2 := heq.2 ▸ List.mem_append_right l1r (List.mem_cons_self '_' l2)
      exact absurd this h2
    | cons d t1r =>
      simp only [List.cons_append, List.cons.injEq] at heq
      have hrec := ih t1r l2 t2 (fun hm => h1 (List.mem_cons_of_mem d hm)) h2 heq.2
      exact ⟨by rw [heq.1, hrec.1], hrec.2⟩

theorem teamKey_inj {h w a b : String} (ha : noSep a) (hb : noSep b)
    (heq : teamKey h w = teamKey a b) : pyLower h = pyLower a ∧ pyLower w = pyLower b := by
  have hd := congrArg String.data heq
  rw [teamKey_data, teamKey_data] at hd
  have := sepSplit (pyLower h).data (pyLower a).data (pyLower w).data (pyLower b).data
    (pyLower_noSep ha) (pyLower_noSep hb) hd
  exact ⟨String.ext this.1, String.ext this.2⟩

theorem teamKey_congr {a b a2 b2 : String} (h1 : pyLower a2 = pyLower a)
    (h2 : pyLower b2 = pyLower b) : teamKey a2 b2 = teamKey a b := by
  unfold teamKey; rw [h1, h2]

theorem dictLookup_insert_self (k : String) (v : Match) :
    ∀ l, dictLookup k (dictInsert k v l) = some v := by
  intro l
  induction l with
  | nil => simp [dictInsert, dictLookup]
  | cons p rest ih =>
    obtain ⟨k2, m⟩ := p
    by_cases hk : k2 = k
    · simp [dictInsert, dictLookup, hk]
    · simp [dictInsert, dictLookup, hk, ih]

theorem dictInsert_of_not_mem (k : String) (v : Match) :
    ∀ l, k ∉ l.map Prod.fst → dictInsert k v l = l ++ [(k, v)] := by
  intro l
  induction l with
  | nil => intro _; rfl
  | cons p rest ih =>
    obtain ⟨k2, m⟩ := p
    intro hnm
    simp only [List.map_cons, List.mem_cons] at hnm
    push_neg at hnm
    have hne : ¬k2 = k := fun h => hnm.1 h.symm
    simp [dictInsert, hne, ih hnm.2]

theorem dictLookup_eq_none_iff (k : String) :
    ∀ l, dictLookup k l = none ↔ k ∉ l.map Prod.fst := by
  intro l
  induction l with
  | nil => simp [dictLookup]
  | cons p rest ih =>
    obtain ⟨k2, m⟩ := p
    by_cases hk : k2 = k
    · simp [dictLookup, hk]
    · have hne : ¬k = k2 := fun h => hk h.symm
      simp only [dictLookup, hk, if_false, List.map_cons, List.mem_cons]
      rw [ih]
      simp [hne]

theorem dictLookup_some_mem {k : String} {m : Match} :
    ∀ {l}, dictLookup k l = some m → (k, m) ∈ l := by
  intro l
  induction l with
  | nil => intro h; simp [dictLookup] at h
  | cons p rest ih =>
    obtain ⟨k2, m2⟩ := p
    intro h
    by_cases hk : k2 = k
    · simp [dictLookup, hk] at h
      exact hk ▸ h ▸ List.mem_cons_self _ _
    · simp [dictLookup, hk] at h
      exact List.mem_cons_of_mem _ (ih h)

theorem dictLookup_append (k : String) :
    ∀ l1 l2, dictLookup k (l1 ++ l2) =
      match dictLookup k l1 with
      | some v => some v
      | none => dictLookup k l2 := by
  intro l1 l2
  induction l1 with
  | nil => simp [dictLookup]
  | cons p rest ih =>
    obtain ⟨k2, m⟩ := p
    by_cases hk : k2 = k <;> simp [dictLookup, hk, ih]

theorem dictErase_sublist (k : String) : ∀ l, List.Sublist (dictErase k l) l := by
  intro l
  induction l with
  | nil => simp [dictErase]
  | cons p rest ih =>
    obtain ⟨k2, m⟩ := p
    by_cases hk : k2 = k
    · simp only [dictErase, hk, if_true, eq_self_iff_true, if_pos]
      exact List.sublist_cons_self _ _
    · simp only [dictErase, hk, if_false]
      exact List.Sublist.cons₂ (k2, m) ih

theorem dictErase_length {k : String} :
    ∀ {l}, k ∈ l.map Prod.fst → (dictErase k l).length + 1 = l.length := by
  intro l
  induction l with
  | nil => intro h; simp at h
  | cons p rest ih =>
    obtain ⟨k2, m⟩ := p
    intro hmem
    by_cases hk : k2 = k
    · simp [dictErase, hk]
    · simp only [List.map_cons, List.mem_cons] at hmem
      have : k ∈ rest.map Prod.fst := hmem.resolve_left (fun h => hk h.symm)
      simp [dictErase, hk, ih this]

theorem dictErase_keys (k : String) :
    ∀ l, (dictErase k l).map Prod.fst = (l.map Prod.fst).erase k := by
  intro l
  induction l with
  | nil => simp [dictErase]
  | cons p rest ih =>
    obtain ⟨k2, m⟩ := p
    by_cases hk : k2 = k
    · simp [dictErase, hk, List.erase_cons_head]
    · simp [dictErase, hk, List.erase_cons_tail, ih]

theorem mem_addTeam {x t : String} {ts : List String} :
    x ∈ addTeam t ts ↔ x = t ∨ x ∈ ts := by
  unfold addTeam
  split
  · next h =>
    constructor
    · exact Or.inr
    · intro hx
      rcases hx with hx | hx
      · exact hx ▸ h
      · exact hx
  · simp [or_comm]

theorem addTeam_nodup {t : String} {ts : List String} (h : ts.Nodup) :
    (addTeam t ts).Nodup := by
  unfold addTeam
  split
  · exact h
  · next hni =>
    rw [List.nodup_append]
    exact ⟨h, List.nodup_singleton t, by simpa using fun hx => hni hx⟩

instance : DecidableEq (Except Err Match) := fun x y =>
  match x, y with
  | .ok a, .ok b =>
    if h : a = b then isTrue (by rw [h]) else isFalse (by intro hc; cases hc; exact h rfl)
  | .ok _, .error _ => isFalse (by intro hc; cases hc)
  | .error _, .ok _ => isFalse (by intro hc; cases hc)
  | .error e1, .error e2 =>
    if h : e1 = e2 then isTrue (by rw [h]) else isFalse (by intro hc; cases hc; exact h rfl)

/-- Success test on `Except` (pydantic construction did not raise). -/
def isOkB : Except Err Match → Bool
  | .ok _ => true
  | .error _ => false

theorem string_length_append (s t : String) : (s ++ t).length = s.length + t.length := by
  show (s ++ t).data.length = _
  rw [String.data_append, List.length_append]; rfl

/-! ### Concrete states used by witnesses and counterexamples -/

/-- The board after `start_match("A", "B")` on a fresh scoreboard. -/
def sbAB : Scoreboard := (startMatch initialScoreboard "A" "B").2

/-- The requirements example: five matches started in the given order, then
their scores set. -/
def wcOps : List Op :=
  [ .start "Mexico" "Canada", .start "Spain" "Brazil", .start "Germany" "France",
    .start "Uruguay" "Italy", .start "Argentina" "Australia",
    .update "Mexico" "Canada" (.int 0) (.int 5),
    .update "Spain" "Brazil" (.int 10) (.int 2),
    .update "Germany" "France" (.int 2) (.int 2),
    .update "Uruguay" "Italy" (.int 6) (.int 6),
    .update "Argentina" "Australia" (.int 3) (.int 1) ]

/-- The board of the requirements example. -/
def wcBoard : Scoreboard := runOps wcOps

/-! ### C3 — Match construction validation -/

/-- C3 (amended): constructing a `Match` fails exactly when a name is missing
(not passed at all) or the two names are equal case-insensitively.  A single
empty name next to a distinct name is accepted: pydantic's plain `str` field
does not reject the empty string, and the `capitalize` validator only compares
the two names. -/
theorem c3_match_construction_validation (oh oa : Option String) :
    isOkB (mkMatch oh oa) = false ↔
      oh = none ∨ oa = none ∨
        ∃ h a, oh = some h ∧ oa = some a ∧ pyLower h = pyLower a := by
  cases oh with
  | none => simp [mkMatch, isOkB]
  | some h =>
    cases oa with
    | none => simp [mkMatch, isOkB]
    | some a =>
      by_cases heq : pyLower h = pyLower a
      · simp [mkMatch, isOkB, heq]
      · simp [mkMatch, isOkB, heq]

/-- C3, counterexample to the claim as stated: `Match(home="", away="B")` —
one empty and one non-empty name — is accepted, not rejected. -/
theorem c3_empty_name_accepted :
    isOkB (mkMatch (some "") (some "B")) = true ∧
      mkMatch (some "") (some "B") = .ok ⟨"", "B", 0, 0, 0⟩ := by
  decide

/-! ### C1 — update_score error handling -/

/-- C1 (amended): with an active match stored under the exact `(home, away)`
orientation, `update_match_score` validates each score field on its own, in
order.  If the home value fails validation, a `ValidationError` is raised and
the state is untouched; if the home value passes and the away value fails, a
`ValidationError` is raised but the home score has already been committed, so
a partial score update is observable. -/
theorem c1_update_score_per_field (sb : Scoreboard) (home away : String) (m : Match)
    (v1 v2 : PyVal) (hm : dictLookup (teamKey home away) sb.matchDict = some m) :
    (validateScore v1 = none →
      updateMatchScore sb home away v1 v2 = (some .validation, sb)) ∧
    (∀ h, validateScore v1 = some h → validateScore v2 = none →
      (updateMatchScore sb home away v1 v2).1 = some .validation ∧
      dictLookup (teamKey home away) (updateMatchScore sb home away v1 v2).2.matchDict =
        some { m with home_score := h }) := by
  constructor
  · intro hv1
    simp [updateMatchScore, getMatch, hm, hv1]
  · intro h hv1 hv2
    simp only [updateMatchScore, getMatch, hm, hv1, hv2]
    exact ⟨trivial, dictLookup_insert_self _ _ _⟩

/-- C1 witness: on the concrete board with `A` vs `B` at `0:0`, an invalid
home value leaves everything unchanged. -/
theorem c1_update_score_per_field_witness :
    dictLookup (teamKey "A" "B") sbAB.matchDict = some ⟨"A", "B", 0, 0, 0⟩ ∧
      validateScore (.int (-1)) = none ∧
      updateMatchScore sbAB "A" "B" (.int (-1)) (.int 2) = (some .validation, sbAB) :=
  ⟨by decide, by decide,
    (c1_update_score_per_field sbAB "A" "B" ⟨"A", "B", 0, 0, 0⟩ (.int (-1)) (.int 2)
      (by decide)).1 (by decide)⟩

/-- C1 counterexample: `update_match_score("A", "B", 3, -1)` raises a
`ValidationError`, yet afterwards the home score is `3` while it was `0`
before the call — the partial update the claim rules out. -/
theorem c1_partial_update_observable :
    (updateMatchScore sbAB "A" "B" (.int 3) (.int (-1))).1 = some .validation ∧
      dictLookup (teamKey "A" "B")
        (updateMatchScore sbAB "A" "B" (.int 3) (.int (-1))).2.matchDict =
        some ⟨"A", "B", 3, 0, 0⟩ ∧
      dictLookup (teamKey "A" "B") sbAB.matchDict = some ⟨"A", "B", 0, 0, 0⟩ := by
  decide

/-! ### C2 — start duplicate detection -/

/-- C2 (amended): `start_match` raises the duplicate-entity error exactly when
the pair passes `Match` construction validation and either case-folded name is
already engaged; a pair failing construction validation raises the
validation-kind error first, even when a participant is engaged.  Any error
leaves the registry unchanged. -/
theorem c2_start_duplicate_iff (sb : Scoreboard) (h a : String) :
    ((startMatch sb h a).1 = some .duplicate ↔
      isOkB (mkMatch (some h) (some a)) = true ∧
        (pyLower h ∈ sb.teams ∨ pyLower a ∈ sb.teams)) ∧
    ((startMatch sb h a).1 ≠ none → (startMatch sb h a).2 = sb) := by
  by_cases hv : pyLower h = pyLower a
  · simp [startMatch, mkMatch, isOkB, hv]
  · by_cases hmem : pyLower h ∈ sb.teams ∨ pyLower a ∈ sb.teams
    · simp [startMatch, mkMatch, isOkB, hv, hmem]
    · simp [startMatch, mkMatch, isOkB, hv, hmem]

/-- C2 witness: starting `A` vs `B` again on the concrete board errors and
leaves the board unchanged. -/
theorem c2_start_duplicate_iff_witness :
    (startMatch sbAB "A" "B").1 ≠ none ∧ (startMatch sbAB "A" "B").2 = sbAB :=
  ⟨by decide, (c2_start_duplicate_iff sbAB "A" "B").2 (by decide)⟩

/-- C2 counterexample: with `a` engaged (match `A` vs `B` active),
`start_match("A", "a")` raises the validation-kind error from `Match`
construction, not the duplicate-entity error, although the case-folded home
name is in the engaged set. -/
theorem c2_engaged_but_not_duplicate :
    (startMatch sbAB "A" "a").1 = some .validation ∧
      pyLower "A" ∈ sbAB.teams ∧
      (startMatch sbAB "A" "a").1 ≠ some .duplicate := by
  decide

/-! ### C9 — name truncation -/

/-- C9 (amended): `_match_printer` keeps a name whole only when its length is
strictly below `column_width - COLUMN_PADDING`; a name of length exactly
`column_width - COLUMN_PADDING` is already truncated (the code compares with
`<`, not `<=`).  Every truncated name, ellipsis included, has length exactly
`column_width - COLUMN_PADDING`. -/
theorem c9_truncation_boundary (name : String) (cw : Nat) (hcw : 5 ≤ cw) :
    (name.length < cw - COLUMN_PADDING → displayName name cw = name) ∧
    (cw - COLUMN_PADDING ≤ name.length →
      displayName name cw = name.take (cw - 5) ++ "..." ∧
      (displayName name cw).length = cw - COLUMN_PADDING) := by
  have hpad : COLUMN_PADDING = 2 := rfl
  constructor
  · intro hlt
    unfold displayName
    rw [if_pos]
    rw [hpad] at hlt
    omega
  · intro hge
    rw [hpad] at hge
    have hcond : ¬((name.length : Int) < (cw : Int) - (COLUMN_PADDING : Int)) := by
      rw [hpad]
      push_cast
      omega
    have htk : ((cw : Int) - (COLUMN_PADDING : Int) - 3).toNat = cw - 5 := by
      rw [hpad]
      omega
    have hnn : (0 : Int) ≤ (cw : Int) - (COLUMN_PADDING : Int) - 3 := by
      rw [hpad]
      omega
    have heq : displayName name cw = name.take (cw - 5) ++ "..." := by
      unfold displayName pyTake
      rw [if_neg hcond, if_pos hnn, htk]
    refine ⟨heq, ?_⟩
    rw [heq, string_length_append, string_length_take, hpad]
    have : ("..." : String).length = 3 := rfl
    omega

/-- C9 witness: in a column of width 12 the name `Germany` (7 characters,
below the 10-character allowance) is shown whole, and a 16-character name is
truncated to exactly 10 characters. -/
theorem c9_truncation_boundary_witness :
    (5 ≤ 12 ∧ ("Germany" : String).length < 12 - COLUMN_PADDING ∧
      displayName "Germany" 12 = "Germany") ∧
    (12 - COLUMN_PADDING ≤ ("AAAABBBBCCCCDDDD" : String).length ∧
      displayName "AAAABBBBCCCCDDDD" 12 = ("AAAABBBBCCCCDDDD" : String).take 7 ++ "..." ∧
      (displayName "AAAABBBBCCCCDDDD" 12).length = 12 - COLUMN_PADDING) :=
  ⟨⟨by decide, by decide,
      (c9_truncation_boundary "Germany" 12 (by decide)).1 (by decide)⟩,
    ⟨by decide, (c9_truncation_boundary "AAAABBBBCCCCDDDD" 12 (by decide)).2 (by decide)⟩⟩

/-- C9 counterexample: a name of length exactly `column_width - padding`
(here 10 = 12 - 2) is not rendered in full, contrary to the claim: it is cut
to 7 characters plus the ellipsis. -/
theorem c9_boundary_name_truncated :
    ("ABCDEFGHIJ" : String).length = 12 - COLUMN_PADDING ∧
      displayName "ABCDEFGHIJ" 12 = "ABCDEFG..." ∧
      displayName "ABCDEFGHIJ" 12 ≠ "ABCDEFGHIJ" := by
  decide

/-! ### C10 — column width depends on the window only -/

/-- A two-match board whose longest name sits in the match with the lower
total score, so that it falls outside a one-line window. -/
def sbX : Scoreboard :=
  ⟨[("aaaaaaaaaaaaaaaaaaaa_b", { home := "AAAAAAAAAAAAAAAAAAAA", away := "B", order_started := 0 }),
    ("cd_de", { home := "Cd", away := "De", home_score := 3, away_score := 2, order_started := 1 })],
   ["aaaaaaaaaaaaaaaaaaaa", "b", "cd", "de"], 2⟩

/-- C10: the column width of a render is `_get_column_width` of the paginated
window only — it is a function of the name lengths inside the window (plus the
fixed bounds and padding) — so the same registry rendered with different
`max_lines` gets different widths: on `sbX`, width 22 with the full window and
width 12 when only the top match is shown. -/
theorem c10_column_width_window_only :
    (∀ ms1 ms2 : List Match,
      ms1.map (fun m => (Match.home m).length) = ms2.map (fun m => (Match.home m).length) →
      ms1.map (fun m => (Match.away m).length) = ms2.map (fun m => (Match.away m).length) →
      getColumnWidth ms1 = getColumnWidth ms2) ∧
    (∀ sb ml s, summaryColumnWidth sb ml s =
      getColumnWidth (getMatchesForSummary sb (ml.getD MAX_SUMMARY_LINES) s).1) ∧
    (summaryColumnWidth sbX (some 20) 0 = 22 ∧ summaryColumnWidth sbX (some 1) 0 = 12) := by
  refine ⟨?_, fun sb ml s => rfl, by decide⟩
  intro ms1 ms2 h1 h2
  unfold getColumnWidth maxNameLength
  rw [h1, h2]

/-- C10 witness: two windows with pairwise equal name lengths but different
names get the same column width. -/
theorem c10_column_width_window_only_witness :
    ([({ home := "Cd", away := "De", home_score := 3, away_score := 2, order_started := 1 } : Match)].map
        (fun m => (Match.home m).length) =
      [({ home := "Xy", away := "Zw", order_started := 7 } : Match)].map
        (fun m => (Match.home m).length)) ∧
    ([({ home := "Cd", away := "De", home_score := 3, away_score := 2, order_started := 1 } : Match)].map
        (fun m => (Match.away m).length) =
      [({ home := "Xy", away := "Zw", order_started := 7 } : Match)].map
        (fun m => (Match.away m).length)) ∧
    getColumnWidth [({ home := "Cd", away := "De", home_score := 3, away_score := 2, order_started := 1 } : Match)] =
      getColumnWidth [({ home := "Xy", away := "Zw", order_started := 7 } : Match)] :=
  ⟨by decide, by decide,
    c10_column_width_window_only.1 _ _ (by decide) (by decide)⟩

/-! ### C8 — empty-board summary -/

theorem window_of_empty (sb : Scoreboard) (ml s : Nat) (hempty : sb.matchDict = []) :
    getMatchesForSummary sb ml s = ([], false) := by
  have hsort : sortMatches sb = [] := by
    simp [sortMatches, sortMatchesList, hempty]
  unfold getMatchesForSummary
  rw [hsort]
  show (if ([] : List Match).length + s ≤ ml then (List.drop s ([] : List Match), false)
    else (List.take ml (List.drop s ([] : List Match)),
      decide (s + ml < ([] : List Match).length))) = ([], false)
  split <;> simp

/-- C8 (amended): with zero active matches the plain render (or any render on
an environment without the capability flag) is the empty string, but the
decorated render on a capable environment is not empty: it still emits the
header and the footer (around zero match lines, with no ellipsis). -/
theorem c8_empty_board_summary (sb : Scoreboard) (pretty is_linux : Bool)
    (ml : Option Nat) (s : Nat) (hempty : sb.matchDict = []) :
    ((pretty && is_linux) = false → summary sb pretty ml s is_linux = "") ∧
    ((pretty && is_linux) = true →
      summary sb pretty ml s is_linux = summaryHeader 12 ++ summaryFooter 12 ∧
      summary sb pretty ml s is_linux ≠ "") := by
  have hwin : getMatchesForSummary sb (ml.getD MAX_SUMMARY_LINES) s = ([], false) :=
    window_of_empty sb _ s hempty
  have hcw : summaryColumnWidth sb ml s = 12 := by
    unfold summaryColumnWidth
    rw [hwin]
    decide
  constructor
  · intro hmode
    have hp : summaryPieces sb pretty ml s is_linux = [] := by
      unfold summaryPieces
      show ((if (pretty && is_linux) = true
            then [summaryHeader (summaryColumnWidth sb ml s)] else []) ++
          List.map (fun m => matchLine m (summaryColumnWidth sb ml s) (pretty && is_linux))
            (getMatchesForSummary sb (ml.getD MAX_SUMMARY_LINES) s).1 ++
          (if (getMatchesForSummary sb (ml.getD MAX_SUMMARY_LINES) s).2 = true
            then [TABLE_ELLIPSIS] else []) ++
          (if (pretty && is_linux) = true
            then [summaryFooter (summaryColumnWidth sb ml s)] else [])) = []
      rw [hwin, hmode]
      simp
    unfold summary
    rw [hp]
    rfl
  · intro hmode
    have hp : summaryPieces sb pretty ml s is_linux = [summaryHeader 12, summaryFooter 12] := by
      unfold summaryPieces
      show ((if (pretty && is_linux) = true
            then [summaryHeader (summaryColumnWidth sb ml s)] else []) ++
          List.map (fun m => matchLine m (summaryColumnWidth sb ml s) (pretty && is_linux))
            (getMatchesForSummary sb (ml.getD MAX_SUMMARY_LINES) s).1 ++
          (if (getMatchesForSummary sb (ml.getD MAX_SUMMARY_LINES) s).2 = true
            then [TABLE_ELLIPSIS] else []) ++
          (if (pretty && is_linux) = true
            then [summaryFooter (summaryColumnWidth sb ml s)] else [])) =
        [summaryHeader 12, summaryFooter 12]
      rw [hwin, hcw, hmode]
      simp
    have hsum : summary sb pretty ml s is_linux = summaryHeader 12 ++ summaryFooter 12 := by
      unfold summary
      rw [hp]
      apply String.ext
      simp [String.data_join, String.data_append]
    refine ⟨hsum, ?_⟩
    rw [hsum]
    decide

/-- C8 witness: on a fresh scoreboard the plain render is empty and the
decorated capable render is the non-empty header plus footer. -/
theorem c8_empty_board_summary_witness :
    initialScoreboard.matchDict = [] ∧
      ((false && true) = false → summary initialScoreboard false none 0 true = "") ∧
      ((true && true) = true →
        summary initialScoreboard true none 0 true = summaryHeader 12 ++ summaryFooter 12 ∧
        summary initialScoreboard true none 0 true ≠ "") :=
  ⟨rfl, (c8_empty_board_summary initialScoreboard false true none 0 rfl).1,
    (c8_empty_board_summary initialScoreboard true true none 0 rfl).2⟩

/-- C8 counterexample: rendering zero active matches in decorated mode on a
capable environment is not the empty string, contrary to the claim. -/
theorem c8_decorated_empty_not_empty_string :
    summary initialScoreboard true none 0 true ≠ "" := by
  decide

/-! ### C5 — default sort order -/

/-- C5: the total-goals sort is a permutation of the active matches that is
sorted by `goalsTotalLE` — total score descending, ties by larger
(more recent) `order_started` — and on the five matches of the requirements
example (Mexico/Canada 0:5, Spain/Brazil 10:2, Germany/France 2:2,
Uruguay/Italy 6:6, Argentina/Australia 3:1, started in that order) it yields
Uruguay/Italy, Spain/Brazil, Mexico/Canada, Argentina/Australia,
Germany/France. -/
theorem c5_goals_total_sort :
    (∀ l : List Match,
      List.Perm (sortMatchesList l) l ∧ List.Sorted goalsTotalLE (sortMatchesList l)) ∧
    (sortMatches wcBoard).map (fun m => (m.home, m.away, m.home_score, m.away_score)) =
      [("Uruguay", "Italy", 6, 6), ("Spain", "Brazil", 10, 2), ("Mexico", "Canada", 0, 5),
        ("Argentina", "Australia", 3, 1), ("Germany", "France", 2, 2)] := by
  constructor
  · intro l
    exact ⟨List.perm_insertionSort goalsTotalLE l, List.sorted_insertionSort goalsTotalLE l⟩
  · decide

/-! ### C6 — pagination and the truncation marker -/

theorem sortMatches_length (sb : Scoreboard) :
    (sortMatches sb).length = sb.matchDict.length := by
  unfold sortMatches sortMatchesList
  rw [(List.perm_insertionSort goalsTotalLE _).length_eq, List.length_map]

/-- A board holding 1000 (structurally distinct) matches. -/
def sb1000 : Scoreboard :=
  ⟨(List.range 1000).map (fun i => (toString i, { home := "H", away := "W", order_started := i })),
   [], 1000⟩

/-- C6: whenever the slice of the default-sorted list starting at `start_from`
holds more than `max_lines` entries, the plain summary renders exactly
`max_lines` match lines, with the truncation marker appended exactly when
entries remain beyond the rendered window; in particular any board with 1000
active matches under the defaults (`max_lines = 20`, `start_from = 0`) renders
21 pieces, the last being the marker line. -/
theorem c6_pagination_marker :
    (∀ sb ml s, ml + s < (sortMatches sb).length →
      ((getMatchesForSummary sb ml s).1.length = ml ∧
       ((getMatchesForSummary sb ml s).2 = true ↔ s + ml < (sortMatches sb).length) ∧
       (∀ il, summaryPieces sb false (some ml) s il =
         (getMatchesForSummary sb ml s).1.map
            (fun m => matchLine m (summaryColumnWidth sb (some ml) s) false) ++
          (if s + ml < (sortMatches sb).length then [TABLE_ELLIPSIS] else [])))) ∧
    (∀ sb il, sb.matchDict.length = 1000 →
      (summaryPieces sb false none 0 il).length = 21 ∧
      (summaryPieces sb false none 0 il).getLast? = some TABLE_ELLIPSIS) := by
  have main : ∀ sb ml s, ml + s < (sortMatches sb).length →
      ((getMatchesForSummary sb ml s).1.length = ml ∧
       ((getMatchesForSummary sb ml s).2 = true ↔ s + ml < (sortMatches sb).length) ∧
       (∀ il, summaryPieces sb false (some ml) s il =
         (getMatchesForSummary sb ml s).1.map
            (fun m => matchLine m (summaryColumnWidth sb (some ml) s) false) ++
          (if s + ml < (sortMatches sb).length then [TABLE_ELLIPSIS] else []))) := by
    intro sb ml s hlt
    have hwin : getMatchesForSummary sb ml s =
        (((sortMatches sb).drop s).take ml, decide (s + ml < (sortMatches sb).length)) := by
      unfold getMatchesForSummary
      show (if (sortMatches sb).length + s ≤ ml
          then (List.drop s (sortMatches sb), false)
          else (List.take ml (List.drop s (sortMatches sb)),
            decide (s + ml < (sortMatches sb).length))) = _
      rw [if_neg (by omega)]
    refine ⟨?_, ?_, ?_⟩
    · rw [hwin]
      simp only [List.length_take, List.length_drop]
      omega
    · rw [hwin]
      simp
    · intro il
      unfold summaryPieces
      show ((if (false && il) = true
            then [summaryHeader (summaryColumnWidth sb (some ml) s)] else []) ++
          List.map (fun m => matchLine m (summaryColumnWidth sb (some ml) s) (false && il))
            (getMatchesForSummary sb ((some ml).getD MAX_SUMMARY_LINES) s).1 ++
          (if (getMatchesForSummary sb ((some ml).getD MAX_SUMMARY_LINES) s).2 = true
            then [TABLE_ELLIPSIS] else []) ++
          (if (false && il) = true
            then [summaryFooter (summaryColumnWidth sb (some ml) s)] else [])) = _
      have hgd : (some ml).getD MAX_SUMMARY_LINES = ml := rfl
      rw [hgd, hwin]
      simp
  refine ⟨main, ?_⟩
  intro sb il h1000
  have hlen : (sortMatches sb).length = 1000 := by rw [sortMatches_length, h1000]
  have hlt : 20 + 0 < (sortMatches sb).length := by omega
  have h20 : (getMatchesForSummary sb 20 0).1.length = 20 := (main sb 20 0 hlt).1
  have hmore : 0 + 20 < (sortMatches sb).length := by omega
  have hp := (main sb 20 0 hlt).2.2 il
  have hnone : summaryPieces sb false none 0 il = summaryPieces sb false (some 20) 0 il := rfl
  rw [hnone, hp, if_pos hmore]
  constructor
  · rw [List.length_append, List.length_map, h20]
    rfl
  · exact List.getLast?_concat _

/-- C6 witness: the general window facts at the requirements-example board
with a 2-line window, and the 21-piece summary on a concrete 1000-match
board. -/
theorem c6_pagination_marker_witness :
    (2 + 0 < (sortMatches wcBoard).length ∧
      (getMatchesForSummary wcBoard 2 0).1.length = 2) ∧
    (sb1000.matchDict.length = 1000 ∧
      (summaryPieces sb1000 false none 0 true).length = 21 ∧
      (summaryPieces sb1000 false none 0 true).getLast? = some TABLE_ELLIPSIS) :=
  ⟨⟨by decide, (c6_pagination_marker.1 wcBoard 2 0 (by decide)).1⟩,
    ⟨by simp [sb1000], c6_pagination_marker.2 sb1000 true (by simp [sb1000])⟩⟩

/-! ### C4 — order- and case-insensitive lookup after start -/

theorem startMatch_ok_state {sb sb2 : Scoreboard} {h a : String}
    (hst : startMatch sb h a = (none, sb2)) :
    pyLower h ≠ pyLower a ∧ pyLower h ∉ sb.teams ∧ pyLower a ∉ sb.teams ∧
    sb2 = ⟨dictInsert (teamKey h a) ⟨h, a, 0, 0, sb.order_counter⟩ sb.matchDict,
           addTeam (pyLower a) (addTeam (pyLower h) sb.teams), sb.order_counter + 1⟩ := by
  unfold startMatch mkMatch at hst
  by_cases hv : pyLower h = pyLower a
  · simp [hv] at hst
  · by_cases hmem : pyLower h ∈ sb.teams ∨ pyLower a ∈ sb.teams
    · simp [hv, hmem] at hst
    · simp [hv, hmem] at hst
      push_neg at hmem
      exact ⟨hv, hmem.1, hmem.2, hst.symm⟩

theorem start_key_fresh {sb : Scoreboard} {a b : String}
    (hInv1 : ∀ p ∈ sb.matchDict, p.1 = teamKey p.2.home p.2.away)
    (hInv2 : ∀ p ∈ sb.matchDict, pyLower p.2.home ∈ sb.teams ∧ pyLower p.2.away ∈ sb.teams)
    (hna : noSep a) (hnb : noSep b) (hta : pyLower a ∉ sb.teams) :
    teamKey a b ∉ sb.matchDict.map Prod.fst := by
  intro hmem
  obtain ⟨p, hp, hfst⟩ := List.mem_map.mp hmem
  have hk : teamKey p.2.home p.2.away = teamKey a b := by
    rw [← hInv1 p hp, hfst]
  have hinj := teamKey_inj hna hnb hk
  exact hta (hinj.1 ▸ (hInv2 p hp).1)

/-- C4 (amended): in any state satisfying the registry invariant, after a
successful `start_match(a, b)` with names free of the key separator `'_'`,
both `get_match(a, b)` and the swapped `get_match(b, a)` — each in arbitrary
casing — return the one stored match, with `home = a`, `away = b` and both
scores zero.  (For names containing `'_'` the swapped lookup can hit a
different match whose joined key collides; see the counterexample.) -/
theorem c4_start_then_get (sb sb2 : Scoreboard) (a b a2 b2 : String)
    (hInv : RegInv sb) (hna : noSep a) (hnb : noSep b)
    (hst : startMatch sb a b = (none, sb2))
    (ha2 : pyLower a2 = pyLower a) (hb2 : pyLower b2 = pyLower b) :
    ∃ m, getMatch sb2 a2 b2 false = .ok m ∧ getMatch sb2 b2 a2 false = .ok m ∧
      m.home = a ∧ m.away = b ∧ m.home_score = 0 ∧ m.away_score = 0 := by
  obtain ⟨hv, hta, htb, hstate⟩ := startMatch_ok_state hst
  have hfresh : teamKey a b ∉ sb.matchDict.map Prod.fst :=
    start_key_fresh hInv.1 hInv.2.1 hna hnb hta
  have hdict : sb2.matchDict = sb.matchDict ++ [(teamKey a b, ⟨a, b, 0, 0, sb.order_counter⟩)] := by
    rw [hstate]
    exact dictInsert_of_not_mem _ _ _ hfresh
  have hkey2 : teamKey a2 b2 = teamKey a b := teamKey_congr ha2 hb2
  have hkeyswap : teamKey b2 a2 = teamKey b a := teamKey_congr hb2 ha2
  have hlk1 : dictLookup (teamKey a b) sb2.matchDict = some ⟨a, b, 0, 0, sb.order_counter⟩ := by
    rw [hdict, dictLookup_append, (dictLookup_eq_none_iff _ _).mpr hfresh]
    simp [dictLookup]
  have hlkswap : dictLookup (teamKey b a) sb2.matchDict = none := by
    have h1 : dictLookup (teamKey b a) sb.matchDict = none := by
      rw [dictLookup_eq_none_iff]
      intro hmem
      obtain ⟨p, hp, hfst⟩ := List.mem_map.mp hmem
      have hk : teamKey p.2.home p.2.away = teamKey b a := by
        rw [← hInv.1 p hp, hfst]
      have hinj := teamKey_inj hnb hna hk
      exact hta (hinj.2 ▸ (hInv.2.1 p hp).2)
    have hne : teamKey a b ≠ teamKey b a := by
      intro heq
      exact hv (teamKey_inj hnb hna heq).1
    rw [hdict, dictLookup_append, h1]
    simp [dictLookup, hne]
  refine ⟨⟨a, b, 0, 0, sb.order_counter⟩, ?_, ?_, rfl, rfl, rfl, rfl⟩
  · unfold getMatch
    rw [hkey2, hlk1]
  · unfold getMatch getMatchSensitive
    rw [hkeyswap, hlkswap, hkey2, hlk1]
    rfl

/-- C4 witness: starting `C` vs `D` on the board where `A` vs `B` is active,
then querying in swapped order and different casing (`d`, `c`) finds the
stored match with its original orientation. -/
theorem c4_start_then_get_witness :
    RegInv sbAB ∧ noSep "C" ∧ noSep "D" ∧
      startMatch sbAB "C" "D" = (none, (startMatch sbAB "C" "D").2) ∧
      pyLower "d" = pyLower "D" ∧ pyLower "c" = pyLower "C" ∧
      (∃ m, getMatch (startMatch sbAB "C" "D").2 "c" "d" false = .ok m ∧
        getMatch (startMatch sbAB "C" "D").2 "d" "c" false = .ok m ∧
        m.home = "C" ∧ m.away = "D" ∧ m.home_score = 0 ∧ m.away_score = 0) :=
  ⟨by decide, by decide, by decide, by decide, by decide, by decide,
    c4_start_then_get sbAB (startMatch sbAB "C" "D").2 "C" "D" "c" "d"
      (by decide) (by decide) (by decide) (by decide) (by decide) (by decide)⟩

/-- C4 counterexample: with `y` vs `x_x` already active, `start_match("x",
"y_x")` succeeds, yet the swapped-order lookup `get_match("y_x", "x")`
returns the other match — its `home` is `y`, not the started pair's home
`x` — because both pairs share the joined key `y_x_x`. -/
theorem c4_swapped_lookup_collision :
    (startMatch (startMatch initialScoreboard "y" "x_x").2 "x" "y_x").1 = none ∧
      getMatch (startMatch (startMatch initialScoreboard "y" "x_x").2 "x" "y_x").2
        "y_x" "x" false = .ok ⟨"y", "x_x", 0, 0, 0⟩ ∧
      (⟨"y", "x_x", 0, 0, 0⟩ : Match).home ≠ "x" := by
  decide

/-! ### C7 — finishing a match -/

theorem startMatch_error_state {sb : Scoreboard} {h a : String}
    (he : (startMatch sb h a).1 ≠ none) : (startMatch sb h a).2 = sb := by
  unfold startMatch mkMatch
  by_cases hv : pyLower h = pyLower a
  · simp [hv]
  · by_cases hmem : pyLower h ∈ sb.teams ∨ pyLower a ∈ sb.teams
    · simp [hv, hmem]
    · exfalso
      apply he
      simp [startMatch, mkMatch, hv, hmem]

theorem getMatch_sensitive_ok {sb : Scoreboard} {x y : String} {m : Match}
    (hg : getMatch sb x y true = .ok m) :
    dictLookup (teamKey x y) sb.matchDict = some m := by
  unfold getMatch at hg
  cases hlk : dictLookup (teamKey x y) sb.matchDict with
  | some m2 => rw [hlk] at hg; cases hg; rfl
  | none => rw [hlk] at hg; simp at hg

theorem dictLookup_decomp {k : String} {m : Match} :
    ∀ {l}, dictLookup k l = some m →
      ∃ l1 l2, l = l1 ++ (k, m) :: l2 ∧ k ∉ l1.map Prod.fst ∧
        ∀ v, dictInsert k v l = l1 ++ (k, v) :: l2 := by
  intro l
  induction l with
  | nil => intro h; simp [dictLookup] at h
  | cons p rest ih =>
    obtain ⟨k2, m2⟩ := p
    intro h
    by_cases hk : k2 = k
    · simp [dictLookup, hk] at h
      refine ⟨[], rest, ?_, by simp, ?_⟩
      · simp [hk, h]
      · intro v; simp [dictInsert, hk]
    · simp [dictLookup, hk] at h
      obtain ⟨l1, l2, hsplit, hnm, hins⟩ := ih h
      have hne : ¬k = k2 := fun hc => hk hc.symm
      refine ⟨(k2, m2) :: l1, l2, by simp [hsplit], ?_, ?_⟩
      · simp [hnm, hne]
      · intro v; simp [dictInsert, hk, hins v]

theorem regInv_replace {sb : Scoreboard} {k : String} {m v : Match} (c : Nat)
    (hInv : RegInv sb) (hlk : dictLookup k sb.matchDict = some m)
    (hh : v.home = m.home) (ha : v.away = m.away) :
    RegInv ⟨dictInsert k v sb.matchDict, sb.teams, c⟩ := by
  obtain ⟨l1, l2, hsplit, hnm, hins⟩ := dictLookup_decomp hlk
  have hmem0 : (k, m) ∈ sb.matchDict := dictLookup_some_mem hlk
  have hkey : k = teamKey m.home m.away := hInv.1 _ hmem0
  obtain ⟨h1, h2, h3, h4, h5, h6⟩ := hInv
  rw [hins v]
  have hmap : ((l1 ++ (k, v) :: l2).map lowNames) = ((l1 ++ (k, m) :: l2).map lowNames) := by
    simp [lowNames, hh, ha]
  refine ⟨?_, ?_, ?_, ?_, h5, ?_⟩
  · intro p hp
    rcases List.mem_append.mp hp with hp1 | hp2
    · exact h1 p (hsplit ▸ List.mem_append_left _ hp1)
    · rcases List.mem_cons.mp hp2 with hpe | hp3
      · rw [hpe]
        show k = teamKey v.home v.away
        rw [hh, ha, hkey]
      · exact h1 p (hsplit ▸ List.mem_append_right _ (List.mem_cons_of_mem _ hp3))
  · intro p hp
    rcases List.mem_append.mp hp with hp1 | hp2
    · exact h2 p (hsplit ▸ List.mem_append_left _ hp1)
    · rcases List.mem_cons.mp hp2 with hpe | hp3
      · rw [hpe]
        show pyLower v.home ∈ sb.teams ∧ pyLower v.away ∈ sb.teams
        rw [hh, ha]
        exact h2 _ hmem0
      · exact h2 p (hsplit ▸ List.mem_append_right _ (List.mem_cons_of_mem _ hp3))
  · intro p hp
    rcases List.mem_append.mp hp with hp1 | hp2
    · exact h3 p (hsplit ▸ List.mem_append_left _ hp1)
    · rcases List.mem_cons.mp hp2 with hpe | hp3
      · rw [hpe]
        show pyLower v.home ≠ pyLower v.away
        rw [hh, ha]
        exact h3 _ hmem0
      · exact h3 p (hsplit ▸ List.mem_append_right _ (List.mem_cons_of_mem _ hp3))
  · have : ((l1 ++ (k, v) :: l2).map Prod.fst) = ((l1 ++ (k, m) :: l2).map Prod.fst) := by
      simp
    rw [this, ← hsplit]
    exact h4
  · rw [hsplit] at h6
    have hP : ((l1 ++ (k, m) :: l2).map lowNames).Pairwise nameClash :=
      (List.pairwise_map).mpr h6
    rw [← hmap] at hP
    exact (List.pairwise_map).mp hP

theorem erase_lookup_self {sb : Scoreboard} {k : String}
    (hnd : (sb.matchDict.map Prod.fst).Nodup) :
    dictLookup k (dictErase k sb.matchDict) = none := by
  rw [dictLookup_eq_none_iff, dictErase_keys]
  intro hmem
  exact absurd rfl (hnd.mem_erase_iff.mp hmem).1

theorem erase_lookup_none {k k2 : String} {l : List (String × Match)}
    (h : dictLookup k l = none) : dictLookup k (dictErase k2 l) = none := by
  rw [dictLookup_eq_none_iff] at h ⊢
  rw [dictErase_keys]
  intro hmem
  exact h (List.mem_of_mem_erase hmem)

theorem finish_hit {sb : Scoreboard} {x y : String} {m : Match}
    (hInv : RegInv sb) (hnx : noSep x) (hny : noSep y)
    (hlk : dictLookup (teamKey x y) sb.matchDict = some m) :
    finishRemove sb x y =
      (none, ⟨dictErase (teamKey x y) sb.matchDict,
              (sb.teams.erase (pyLower x)).erase (pyLower y), sb.order_counter⟩) ∧
    pyLower m.home = pyLower x ∧ pyLower m.away = pyLower y := by
  have hmem0 : (teamKey x y, m) ∈ sb.matchDict := dictLookup_some_mem hlk
  have hkey : teamKey m.home m.away = teamKey x y := (hInv.1 _ hmem0).symm
  have hnames := teamKey_inj hnx hny hkey
  have hxm : pyLower x ∈ sb.teams := hnames.1 ▸ (hInv.2.1 _ hmem0).1
  have hym : pyLower y ∈ sb.teams := hnames.2 ▸ (hInv.2.1 _ hmem0).2
  have hxy : pyLower x ≠ pyLower y := by
    have := hInv.2.2.1 _ hmem0
    rw [hnames.1, hnames.2] at this
    exact this
  have hnd : sb.teams.Nodup := hInv.2.2.2.2.1
  refine ⟨?_, hnames⟩
  unfold finishRemove removeTeam
  rw [if_pos hxm, if_pos (hnd.mem_erase_iff.mpr ⟨hxy.symm, hym⟩)]

theorem mem_erase_erase {ts : List String} (hnd : ts.Nodup) (x y t : String) :
    t ∈ (ts.erase x).erase y ↔ t ∈ ts ∧ t ≠ x ∧ t ≠ y := by
  rw [(hnd.erase x).mem_erase_iff, hnd.mem_erase_iff]
  tauto

theorem start_ok_of_free {sb2 : Scoreboard} {x c : String}
    (hne : pyLower x ≠ pyLower c) (hx : pyLower x ∉ sb2.teams) (hc : pyLower c ∉ sb2.teams) :
    (startMatch sb2 x c).1 = none := by
  simp [startMatch, mkMatch, hne, hx, hc]

theorem swapped_lookup_none {sb : Scoreboard} {x y : String} {m : Match}
    (hInv : RegInv sb) (hnx : noSep x) (hny : noSep y)
    (hm : dictLookup (teamKey x y) sb.matchDict = some m) :
    dictLookup (teamKey y x) (dictErase (teamKey x y) sb.matchDict) = none := by
  by_cases hkk : teamKey y x = teamKey x y
  · rw [hkk]
    exact erase_lookup_self hInv.2.2.2.1
  · cases hl : dictLookup (teamKey y x) (dictErase (teamKey x y) sb.matchDict) with
    | none => rfl
    | some m2 =>
      exfalso
      have hmem2 : (teamKey y x, m2) ∈ dictErase (teamKey x y) sb.matchDict :=
        dictLookup_some_mem hl
      have hmem2d : (teamKey y x, m2) ∈ sb.matchDict :=
        (dictErase_sublist _ _).subset hmem2
      have hmem0 : (teamKey x y, m) ∈ sb.matchDict := dictLookup_some_mem hm
      have hne : ((teamKey y x, m2) : String × Match) ≠ (teamKey x y, m) := by
        intro he
        exact hkk (congrArg Prod.fst he)
      have hclash := List.Pairwise.forall nameClash_symmetric hInv.2.2.2.2.2 hmem2d hmem0 hne
      have hn2 := teamKey_inj hny hnx (hInv.1 _ hmem2d).symm
      have hn0 := teamKey_inj hnx hny (hInv.1 _ hmem0).symm
      apply hclash.2.1
      show pyLower m2.home = pyLower m.away
      have e2 : pyLower m2.home = pyLower y := hn2.1
      have e0 : pyLower m.away = pyLower y := hn0.2
      rw [e2, e0]

theorem regInv_after_erase {sb : Scoreboard} {x y : String} {m : Match}
    (hInv : RegInv sb) (hnx : noSep x) (hny : noSep y)
    (hm : dictLookup (teamKey x y) sb.matchDict = some m) :
    RegInv ⟨dictErase (teamKey x y) sb.matchDict,
            (sb.teams.erase (pyLower x)).erase (pyLower y), sb.order_counter⟩ := by
  have hmem0 : (teamKey x y, m) ∈ sb.matchDict := dictLookup_some_mem hm
  have hnames := teamKey_inj hnx hny (hInv.1 _ hmem0).symm
  obtain ⟨h1, h2, h3, h4, h5, h6⟩ := hInv
  have hsub := dictErase_sublist (teamKey x y) sb.matchDict
  refine ⟨?_, ?_, ?_, ?_, ?_, ?_⟩
  · intro p hp
    exact h1 p (hsub.subset hp)
  · intro p hp
    have hpd : p ∈ sb.matchDict := hsub.subset hp
    have hpne : p ≠ (teamKey x y, m) := by
      intro hpe
      have hp1 : p.1 ∈ (dictErase (teamKey x y) sb.matchDict).map Prod.fst :=
        List.mem_map_of_mem _ hp
      rw [dictErase_keys, hpe] at hp1
      exact absurd rfl (h4.mem_erase_iff.mp hp1).1
    have hclash := List.Pairwise.forall nameClash_symmetric h6 hpd hmem0 hpne
    have hpteams := h2 p hpd
    have c1 : pyLower p.2.home ≠ pyLower x := by rw [← hnames.1]; exact hclash.1
    have c2 : pyLower p.2.home ≠ pyLower y := by rw [← hnames.2]; exact hclash.2.1
    have c3 : pyLower p.2.away ≠ pyLower x := by rw [← hnames.1]; exact hclash.2.2.1
    have c4 : pyLower p.2.away ≠ pyLower y := by rw [← hnames.2]; exact hclash.2.2.2
    exact ⟨(mem_erase_erase h5 _ _ _).mpr ⟨hpteams.1, c1, c2⟩,
           (mem_erase_erase h5 _ _ _).mpr ⟨hpteams.2, c3, c4⟩⟩
  · intro p hp
    exact h3 p (hsub.subset hp)
  · rw [dictErase_keys]
    exact h4.erase _
  · exact (h5.erase _).erase _
  · exact h6.sublist hsub

theorem regInv_initial : RegInv initialScoreboard := by decide

theorem regInv_start {sb : Scoreboard} {h a : String} (hInv : RegInv sb)
    (hnh : noSep h) (hna : noSep a) : RegInv (startMatch sb h a).2 := by
  by_cases h1 : (startMatch sb h a).1 = none
  · rcases hc : startMatch sb h a with ⟨e, st⟩
    rw [hc] at h1
    simp only at h1
    rw [h1] at hc
    obtain ⟨hv, hth, hta, hstate⟩ := startMatch_ok_state hc
    show RegInv st
    rw [hstate]
    have hfresh : teamKey h a ∉ sb.matchDict.map Prod.fst :=
      start_key_fresh hInv.1 hInv.2.1 hnh hna hth
    rw [dictInsert_of_not_mem _ _ _ hfresh]
    obtain ⟨h1i, h2i, h3i, h4i, h5i, h6i⟩ := hInv
    have hmm : ∀ x, x ∈ addTeam (pyLower a) (addTeam (pyLower h) sb.teams) ↔
        x = pyLower a ∨ x = pyLower h ∨ x ∈ sb.teams := by
      intro x
      rw [mem_addTeam, mem_addTeam]
    refine ⟨?_, ?_, ?_, ?_, ?_, ?_⟩
    · intro p hp
      rcases List.mem_append.mp hp with hp1 | hp2
      · exact h1i p hp1
      · rw [List.mem_singleton.mp hp2]
    · intro p hp
      rcases List.mem_append.mp hp with hp1 | hp2
      · have hpt := h2i p hp1
        exact ⟨(hmm _).mpr (Or.inr (Or.inr hpt.1)), (hmm _).mpr (Or.inr (Or.inr hpt.2))⟩
      · rw [List.mem_singleton.mp hp2]
        exact ⟨(hmm _).mpr (Or.inr (Or.inl rfl)), (hmm _).mpr (Or.inl rfl)⟩
    · intro p hp
      rcases List.mem_append.mp hp with hp1 | hp2
      · exact h3i p hp1
      · rw [List.mem_singleton.mp hp2]
        exact hv
    · rw [List.map_append, List.nodup_append]
      refine ⟨h4i, List.nodup_singleton _, ?_⟩
      intro z hz hz2
      simp only [List.map_cons, List.map_nil, List.mem_singleton] at hz2
      exact hfresh (hz2 ▸ hz)
    · exact addTeam_nodup (addTeam_nodup h5i)
    · rw [List.pairwise_append]
      refine ⟨h6i, List.pairwise_singleton _ _, ?_⟩
      intro p hp q hq
      rw [List.mem_singleton.mp hq]
      have hpt := h2i p hp
      refine ⟨?_, ?_, ?_, ?_⟩
      · intro hcc
        have hcc2 : pyLower p.2.home = pyLower h := hcc
        exact hth (hcc2 ▸ hpt.1)
      · intro hcc
        have hcc2 : pyLower p.2.home = pyLower a := hcc
        exact hta (hcc2 ▸ hpt.1)
      · intro hcc
        have hcc2 : pyLower p.2.away = pyLower h := hcc
        exact hth (hcc2 ▸ hpt.2)
      · intro hcc
        have hcc2 : pyLower p.2.away = pyLower a := hcc
        exact hta (hcc2 ▸ hpt.2)
  · rw [startMatch_error_state h1]
    exact hInv

theorem regInv_update {sb : Scoreboard} {h a : String} {v1 v2 : PyVal}
    (hInv : RegInv sb) : RegInv (updateMatchScore sb h a v1 v2).2 := by
  cases hg : getMatch sb h a true with
  | error e =>
    have heq : updateMatchScore sb h a v1 v2 = (some e, sb) := by
      unfold updateMatchScore
      rw [hg]
    rw [heq]
    exact hInv
  | ok m =>
    have hlk := getMatch_sensitive_ok hg
    cases hv1 : validateScore v1 with
    | none =>
      have heq : updateMatchScore sb h a v1 v2 = (some .validation, sb) := by
        unfold updateMatchScore
        rw [hg, hv1]
      rw [heq]
      exact hInv
    | some hs =>
      cases hv2 : validateScore v2 with
      | none =>
        have heq : updateMatchScore sb h a v1 v2 = (some .validation,
            Scoreboard.mk (dictInsert (teamKey h a) { m with home_score := hs } sb.matchDict)
              sb.teams sb.order_counter) := by
          unfold updateMatchScore
          rw [hg, hv1, hv2]
        rw [heq]
        exact regInv_replace sb.order_counter hInv hlk rfl rfl
      | some as2 =>
        have heq : updateMatchScore sb h a v1 v2 = (none,
            Scoreboard.mk
              (dictInsert (teamKey h a) { m with home_score := hs, away_score := as2 }
                (dictInsert (teamKey h a) { m with home_score := hs } sb.matchDict))
              sb.teams sb.order_counter) := by
          unfold updateMatchScore
          rw [hg, hv1, hv2]
        rw [heq]
        have hmid : RegInv ⟨dictInsert (teamKey h a) { m with home_score := hs } sb.matchDict,
            sb.teams, sb.order_counter⟩ :=
          regInv_replace sb.order_counter hInv hlk rfl rfl
        exact regInv_replace sb.order_counter hmid (dictLookup_insert_self _ _ _) rfl rfl

theorem regInv_finish {sb : Scoreboard} {a b : String} {os : Bool} (hInv : RegInv sb)
    (hna : noSep a) (hnb : noSep b) : RegInv (finishMatch sb a b os).2 := by
  unfold finishMatch
  by_cases hd : (dictLookup (teamKey a b) sb.matchDict).isSome = true
  · rw [if_pos hd]
    obtain ⟨m, hm⟩ := Option.isSome_iff_exists.mp hd
    rw [(finish_hit hInv hna hnb hm).1]
    exact regInv_after_erase hInv hna hnb hm
  · rw [if_neg hd]
    by_cases hos : os = true
    · rw [if_pos hos]
      exact hInv
    · rw [if_neg hos]
      by_cases hd2 : (dictLookup (teamKey b a) sb.matchDict).isSome = true
      · rw [if_pos hd2]
        obtain ⟨m, hm⟩ := Option.isSome_iff_exists.mp hd2
        rw [(finish_hit hInv hnb hna hm).1]
        exact regInv_after_erase hInv hnb hna hm
      · rw [if_neg hd2]
        exact hInv

/-- C7 (amended): in any state satisfying the registry invariant, for
arguments free of the key separator `'_'` (in either order and any casing), a
successful `finish_match(a, b)` removes exactly one match, makes a subsequent
`get_match(a, b)` raise the not-found error, removes exactly the two
case-folded argument names from the engaged set, and then a start involving
either freed participant (against a fresh, valid partner) succeeds; and after
any sequence of operations whose participant names avoid `'_'`, every active
match still has both its case-folded names in the engaged set.  (With names
containing `'_'` the lookup key can collide with a different pair and every
one of these guarantees can fail; see the counterexample.) -/
theorem c7_finish_contract :
    (∀ sb sb2 : Scoreboard, ∀ a b : String, RegInv sb → noSep a → noSep b →
      finishMatch sb a b false = (none, sb2) →
      sb2.matchDict.length + 1 = sb.matchDict.length ∧
      getMatch sb2 a b false = .error .notFound ∧
      (∀ t, t ∈ sb2.teams ↔ t ∈ sb.teams ∧ t ≠ pyLower a ∧ t ≠ pyLower b) ∧
      (∀ c, pyLower a ≠ pyLower c → pyLower c ∉ sb2.teams → (startMatch sb2 a c).1 = none) ∧
      (∀ c, pyLower b ≠ pyLower c → pyLower c ∉ sb2.teams → (startMatch sb2 b c).1 = none)) ∧
    (∀ ops, (∀ op ∈ ops, opNoSep op) → engagedInv (runOps ops)) := by
  constructor
  · intro sb sb2 a b hInv hna hnb hfin
    unfold finishMatch at hfin
    by_cases hd : (dictLookup (teamKey a b) sb.matchDict).isSome = true
    · rw [if_pos hd] at hfin
      obtain ⟨m, hm⟩ := Option.isSome_iff_exists.mp hd
      obtain ⟨hfr, hnames⟩ := finish_hit hInv hna hnb hm
      rw [hfr] at hfin
      have hsb2 : sb2 = ⟨dictErase (teamKey a b) sb.matchDict,
          (sb.teams.erase (pyLower a)).erase (pyLower b), sb.order_counter⟩ := by
        injection hfin with h1 h2
        exact h2.symm
      have hkm : teamKey a b ∈ sb.matchDict.map Prod.fst := by
        by_contra hnm
        rw [(dictLookup_eq_none_iff _ _).mpr hnm] at hm
        simp at hm
      have hteams : ∀ t, t ∈ sb2.teams ↔ t ∈ sb.teams ∧ t ≠ pyLower a ∧ t ≠ pyLower b := by
        intro t
        rw [hsb2]
        exact mem_erase_erase hInv.2.2.2.2.1 _ _ t
      have hafree : pyLower a ∉ sb2.teams := fun hmem => ((hteams _).mp hmem).2.1 rfl
      have hbfree : pyLower b ∉ sb2.teams := fun hmem => ((hteams _).mp hmem).2.2 rfl
      refine ⟨?_, ?_, hteams, ?_, ?_⟩
      · rw [hsb2]
        exact dictErase_length hkm
      · have lk1 : dictLookup (teamKey a b) sb2.matchDict = none := by
          rw [hsb2]
          exact erase_lookup_self hInv.2.2.2.1
        have lk2 : dictLookup (teamKey b a) sb2.matchDict = none := by
          rw [hsb2]
          exact swapped_lookup_none hInv hna hnb hm
        unfold getMatch getMatchSensitive
        rw [lk1, lk2]
        rfl
      · intro c hnec hc
        exact start_ok_of_free hnec hafree hc
      · intro c hnec hc
        exact start_ok_of_free hnec hbfree hc
    · rw [if_neg hd, if_neg Bool.false_ne_true] at hfin
      have hlknone : dictLookup (teamKey a b) sb.matchDict = none := by
        cases hv : dictLookup (teamKey a b) sb.matchDict with
        | none => rfl
        | some mm => rw [hv] at hd; simp at hd
      by_cases hd2 : (dictLookup (teamKey b a) sb.matchDict).isSome = true
      · rw [if_pos hd2] at hfin
        obtain ⟨m, hm⟩ := Option.isSome_iff_exists.mp hd2
        obtain ⟨hfr, hnames⟩ := finish_hit hInv hnb hna hm
        rw [hfr] at hfin
        have hsb2 : sb2 = ⟨dictErase (teamKey b a) sb.matchDict,
            (sb.teams.erase (pyLower b)).erase (pyLower a), sb.order_counter⟩ := by
          injection hfin with h1 h2
          exact h2.symm
        have hkm : teamKey b a ∈ sb.matchDict.map Prod.fst := by
          by_contra hnm
          rw [(dictLookup_eq_none_iff _ _).mpr hnm] at hm
          simp at hm
        have hteams : ∀ t, t ∈ sb2.teams ↔ t ∈ sb.teams ∧ t ≠ pyLower a ∧ t ≠ pyLower b := by
          intro t
          rw [hsb2]
          rw [mem_erase_erase hInv.2.2.2.2.1 _ _ t]
          tauto
        have hafree : pyLower a ∉ sb2.teams := fun hmem => ((hteams _).mp hmem).2.1 rfl
        have hbfree : pyLower b ∉ sb2.teams := fun hmem => ((hteams _).mp hmem).2.2 rfl
        refine ⟨?_, ?_, hteams, ?_, ?_⟩
        · rw [hsb2]
          exact dictErase_length hkm
        · have lk1 : dictLookup (teamKey a b) sb2.matchDict = none := by
            rw [hsb2]
            exact erase_lookup_none hlknone
          have lk2 : dictLookup (teamKey b a) sb2.matchDict = none := by
            rw [hsb2]
            exact erase_lookup_self hInv.2.2.2.1
          unfold getMatch getMatchSensitive
          rw [lk1, lk2]
          rfl
        · intro c hnec hc
          exact start_ok_of_free hnec hafree hc
        · intro c hnec hc
          exact start_ok_of_free hnec hbfree hc
      · rw [if_neg hd2] at hfin
        simp at hfin
  · have step : ∀ sb op, RegInv sb → opNoSep op → RegInv (applyOp sb op) := by
      intro sb op hInv hop
      cases op with
      | start h a => exact regInv_start hInv hop.1 hop.2
      | update h a v1 v2 => exact regInv_update hInv
      | finish x y os => exact regInv_finish hInv hop.1 hop.2
    have hrun : ∀ (ops : List Op) (sb : Scoreboard), RegInv sb → (∀ op ∈ ops, opNoSep op) →
        RegInv (ops.foldl applyOp sb) := by
      intro ops
      induction ops with
      | nil => intro sb hInv _; exact hInv
      | cons op rest ih =>
        intro sb hInv hall
        exact ih _ (step sb op hInv (hall op (List.mem_cons_self _ _)))
          (fun o ho => hall o (List.mem_cons_of_mem _ ho))
    intro ops hall
    exact (hrun ops initialScoreboard regInv_initial hall).2.1

/-- C7 witness: finishing the `A` vs `B` match through lower-cased arguments
on the concrete board, and the engaged-set invariant after a concrete
operation sequence. -/
theorem c7_finish_contract_witness :
    (RegInv sbAB ∧ noSep "a" ∧ noSep "b" ∧
      finishMatch sbAB "a" "b" false = (none, (finishMatch sbAB "a" "b" false).2) ∧
      ((finishMatch sbAB "a" "b" false).2.matchDict.length + 1 = sbAB.matchDict.length ∧
       getMatch (finishMatch sbAB "a" "b" false).2 "a" "b" false = .error .notFound ∧
       (∀ t, t ∈ (finishMatch sbAB "a" "b" false).2.teams ↔
          t ∈ sbAB.teams ∧ t ≠ pyLower "a" ∧ t ≠ pyLower "b") ∧
       (∀ c, pyLower "a" ≠ pyLower c → pyLower c ∉ (finishMatch sbAB "a" "b" false).2.teams →
          (startMatch (finishMatch sbAB "a" "b" false).2 "a" c).1 = none) ∧
       (∀ c, pyLower "b" ≠ pyLower c → pyLower c ∉ (finishMatch sbAB "a" "b" false).2.teams →
          (startMatch (finishMatch sbAB "a" "b" false).2 "b" c).1 = none))) ∧
    ((∀ op ∈ [Op.start "A" "B"], opNoSep op) ∧ engagedInv (runOps [Op.start "A" "B"])) :=
  ⟨⟨by decide, by decide, by decide, by decide,
      c7_finish_contract.1 sbAB (finishMatch sbAB "a" "b" false).2 "a" "b"
        (by decide) (by decide) (by decide) (by decide)⟩,
    ⟨by decide, c7_finish_contract.2 [Op.start "A" "B"] (by decide)⟩⟩

/-- C7 counterexample: with matches `a_b` vs `c`, `a` vs `x` and `b_c` vs `y`
active, `finish_match("a", "b_c")` succeeds — the joined key `a_b_c` hits the
`a_b` vs `c` match — and afterwards the still-active match `a` vs `x` has lost
its participant `a` from the engaged set: the spec invariant fails after this
operation sequence. -/
theorem c7_sep_collision :
    (finishMatch (runOps [Op.start "a_b" "c", Op.start "a" "x", Op.start "b_c" "y"])
        "a" "b_c" false).1 = none ∧
    ¬ engagedInv (runOps [Op.start "a_b" "c", Op.start "a" "x", Op.start "b_c" "y",
        Op.finish "a" "b_c" false]) := by
  decide
